import Mathlib

/-!
Verification of the telemetry classification and aggregation engine of the
vscode-antigravity-monitor extension (src/src/extension.ts), as a shallow
embedding in Lean 4.

Conventions of the embedding:
* JavaScript objects used as string-keyed maps become association lists
  `List (String × α)` in insertion order; `getKey`/`setKey` mirror property
  read and write (update in place, append when absent).
* JavaScript numbers holding token counts are modelled as `Nat`.  The source
  computes `Math.ceil(n / 4)`, `Math.ceil(n * 0.2)`, `Math.ceil(n * 0.8)` and
  `Math.ceil(n / 100)` in IEEE double arithmetic; for every natural `n` in the
  extension's range these equal the exact ceilings of n/4, n/5, 4n/5 and n/100
  (division by 4 is exact, and the relative error 2^-54 of the rounded
  constants 0.2 and 0.8 is below a half ulp of every product), so they are
  embedded as the Nat ceiling divisions `(n+3)/4`, `(n+4)/5`, `(4n+4)/5`,
  `(n+99)/100`.
* The classifier regexes are embedded by an executable matcher over
  `List Char` with JavaScript `\b` word-boundary semantics; `\w` is
  [A-Za-z0-9_] and `\s` is modelled by its ASCII part (the inputs of interest
  are ASCII).  Lowercasing is ASCII lowercasing, as in `Char.toLower`.
-/

/-- Word characters, per the JavaScript regex class `\w` = [A-Za-z0-9_]. -/
def isWordChar (c : Char) : Bool :=
  ('a' ≤ c && c ≤ 'z') || ('A' ≤ c && c ≤ 'Z') || ('0' ≤ c && c ≤ '9') || c == '_'

/-- Whitespace, the ASCII part of the JavaScript regex class `\s`. -/
def isSpaceChar (c : Char) : Bool :=
  c == ' ' || c == '\t' || c == '\n' || c == '\r' || c == Char.ofNat 11 || c == Char.ofNat 12

/-- Patterns occurring in the classifier regexes of `classifyQuery`
(src/src/extension.ts lines 99-123): literals, concatenation, and the
whitespace repetitions `\s*` and `\s+`. -/
inductive Pat where
  | lit : List Char → Pat
  | cat : Pat → Pat → Pat
  | ws0 : Pat
  | ws1 : Pat
deriving DecidableEq

def countLeadingWs : List Char → Nat
  | [] => 0
  | c :: rest => if isSpaceChar c then countLeadingWs rest + 1 else 0

/-- All lengths of text a pattern can consume from the front of `rest`. -/
def matchLens : Pat → List Char → List Nat
  | .lit tok, rest => if tok.isPrefixOf rest then [tok.length] else []
  | .ws0, rest => List.range (countLeadingWs rest + 1)
  | .ws1, rest => (List.range (countLeadingWs rest)).map (· + 1)
  | .cat p q, rest => (matchLens p rest).flatMap (fun k => (matchLens q (rest.drop k)).map (· + k))

def wordAt (t : List Char) (i : Nat) : Bool :=
  match t[i]? with
  | some c => isWordChar c
  | none => false

/-- Word boundary `\b` at position `i` of `t`: the two sides (out of range
counts as non-word) disagree about being a word character. -/
def isBoundary (t : List Char) (i : Nat) : Bool :=
  (if i = 0 then false else wordAt t (i - 1)) != wordAt t i

/-- Whether the regex `\b(p1|p2|...)\b` matches anywhere in `t`, i.e. what the
JavaScript `.test` calls of `classifyQuery` decide. -/
def reMatch (pats : List Pat) (t : List Char) : Bool :=
  (List.range (t.length + 1)).any (fun i =>
    pats.any (fun p =>
      (matchLens p (t.drop i)).any (fun k => isBoundary t i && isBoundary t (i + k))))

def atParamTok : List Char := "@param".toList
def atReturnTok : List Char := "@return".toList
def atDescriptionTok : List Char := "@description".toList
def blockCommentTok : List Char := "/**".toList

/-- Alternatives of the Debugging regex (extension.ts line 102). -/
def debuggingPats : List Pat :=
  [ .lit "error".toList, .lit "exception".toList, .lit "bug".toList, .lit "fix".toList,
    .lit "debug".toList, .lit "traceback".toList,
    .cat (.lit "stack".toList) (.cat .ws0 (.lit "trace".toList)),
    .lit "undefined".toList, .lit "null".toList, .lit "crash".toList,
    .lit "failed".toList, .lit "issue".toList ]

/-- Alternatives of the Search regex (extension.ts line 106). -/
def searchPats : List Pat :=
  [ .lit "search".toList, .lit "find".toList, .lit "lookup".toList, .lit "where".toList,
    .lit "grep".toList, .lit "locate".toList, .lit "query".toList,
    .cat (.lit "select".toList) (.cat .ws1 (.lit "from".toList)) ]

/-- Alternatives of the Documentation regex (extension.ts line 110). -/
def documentationPats : List Pat :=
  [ .lit "docstring".toList, .lit "jsdoc".toList, .lit "readme".toList, .lit "comment".toList,
    .lit "documentation".toList, .lit atParamTok, .lit atReturnTok, .lit atDescriptionTok,
    .lit blockCommentTok ]

/-- Alternatives of the Planning regex (extension.ts line 114). -/
def planningPats : List Pat :=
  [ .lit "plan".toList, .lit "todo".toList, .lit "design".toList, .lit "architecture".toList,
    .lit "refactor".toList, .lit "restructure".toList, .lit "migrate".toList,
    .lit "roadmap".toList, .cat (.lit "implement".toList) (.cat .ws1 (.lit "feature".toList)) ]

/-- Alternatives of the Coding keyword regex (extension.ts line 118). -/
def codingPats : List Pat :=
  [ .lit "function".toList, .lit "class".toList, .lit "const".toList, .lit "let".toList,
    .lit "var".toList, .lit "import".toList, .lit "export".toList, .lit "return".toList,
    .lit "if".toList, .lit "for".toList, .lit "while".toList, .lit "def ".toList,
    .lit "async".toList, .lit "await".toList, .lit "=>".toList ]

/-- The Coding punctuation class `[{};()\[\]]` (extension.ts line 119),
tested against the original, non-lowercased text. -/
def isCodePunct (c : Char) : Bool :=
  c == Char.ofNat 123 || c == Char.ofNat 125 || c == ';' || c == '(' || c == ')' ||
  c == '[' || c == ']'

/-- `classifyQuery` (extension.ts lines 99-123): an ordered cascade of regex
tests on the lowercased text; the punctuation test runs on the original text. -/
def classifyQuery (text : List Char) : String :=
  if reMatch debuggingPats (text.map Char.toLower) then "Debugging"
  else if reMatch searchPats (text.map Char.toLower) then "Search"
  else if reMatch documentationPats (text.map Char.toLower) then "Documentation"
  else if reMatch planningPats (text.map Char.toLower) then "Planning"
  else if reMatch codingPats (text.map Char.toLower) || text.any isCodePunct then "Coding"
  else "General Question"

/-- Whether `tok` occurs as a contiguous substring of `t` (used to state that
an input "contains" a literal token). -/
def containsTok (t tok : List Char) : Bool :=
  (List.range (t.length + 1)).any (fun i => tok.isPrefixOf (t.drop i))

/-- Association-list read, mirroring a JavaScript property read `m[k]`
(absent key gives `undefined`, modelled as `none`). -/
def getKey : List (String × α) → String → Option α
  | [], _ => none
  | p :: rest, k => if p.1 = k then some p.2 else getKey rest k

/-- Association-list write, mirroring a JavaScript property write `m[k] = v`:
an existing key is updated in place, a new key is appended. -/
def setKey : List (String × α) → String → α → List (String × α)
  | [], k, v => [(k, v)]
  | p :: rest, k, v => if p.1 = k then (k, v) :: rest else p :: setKey rest k v

/-- A per-date (or per-branch) record of the token/query and project tables:
`{ inputTokens, outputTokens, queries }` (extension.ts lines 371, 386). -/
structure TQRec where
  inputTokens : Nat
  outputTokens : Nat
  queries : List (String × Nat)
deriving DecidableEq

/-- The three persisted tables: daily model counts, daily token/query stats,
and per-branch project stats (extension.ts lines 13-15). -/
structure Store where
  usage : List (String × List (String × Nat))
  tokenQuery : List (String × TQRec)
  projects : List (String × TQRec)
deriving DecidableEq

/-- `Math.ceil(newChars / 4)` (extension.ts line 351); division by 4 is exact
in doubles, so this is the Nat ceiling division. -/
def estOutputTokens (newChars : Nat) : Nat := (newChars + 3) / 4

/-- `Math.ceil(estimatedOutputTokens * 0.2)` (extension.ts line 353); the
double product rounds correctly, giving the exact ceiling of n/5. -/
def estInputTokens (outTokens : Nat) : Nat := (outTokens + 4) / 5

/-- One iteration of the `onDidChangeTextDocument` handler for a single
content change (extension.ts lines 345-393): qualify the edit by the 30
character threshold, estimate tokens, classify, and apply the three keyed
increments.  `dateKey` and `branch` are the externally supplied keys. -/
def processChange (store : Store) (dateKey branch : String) (text : List Char) : Store :=
  if 30 < text.length then
    let estimatedOutput := estOutputTokens text.length
    let estimatedInput := estInputTokens estimatedOutput
    let estimatedTokens := estimatedInput + estimatedOutput
    let dayMap := (getKey store.usage dateKey).getD []
    let prev := (getKey dayMap "Gemini 1.5 Pro").getD 0
    let usage' := setKey store.usage dateKey (setKey dayMap "Gemini 1.5 Pro" (prev + estimatedTokens))
    let tq := (getKey store.tokenQuery dateKey).getD ⟨0, 0, []⟩
    let queryType := classifyQuery text
    let tq' : TQRec :=
      ⟨tq.inputTokens + estimatedInput, tq.outputTokens + estimatedOutput,
       setKey tq.queries queryType ((getKey tq.queries queryType).getD 0 + 1)⟩
    let pr := (getKey store.projects branch).getD ⟨0, 0, []⟩
    let pr' : TQRec :=
      ⟨pr.inputTokens + estimatedInput, pr.outputTokens + estimatedOutput,
       setKey pr.queries queryType ((getKey pr.queries queryType).getD 0 + 1)⟩
    { usage := usage',
      tokenQuery := setKey store.tokenQuery dateKey tq',
      projects := setKey store.projects branch pr' }
  else store

/-- A value of the raw persisted model-counts table before migration: either a
legacy scalar (`date -> number`) or an object; objects may nest, which lets the
embedding express exactly what the untyped JavaScript rewrite produces. -/
inductive JVal where
  | num : Nat → JVal
  | obj : List (String × JVal) → JVal

def isNum : JVal → Bool
  | .num _ => true
  | .obj _ => false

/-- The legacy-data migration (extension.ts lines 280-288): if the table is
non-empty and its first value is a raw number, rewrite every entry `v` to
`{ 'Gemini 1.5 Pro': v }`; otherwise leave the table unchanged. -/
def migrateUsage (raw : List (String × JVal)) : List (String × JVal) :=
  match raw with
  | [] => []
  | p :: _ =>
    if isNum p.2 then raw.map (fun q => (q.1, JVal.obj [("Gemini 1.5 Pro", q.2)])) else raw

mutual

/-- Total of all numbers contained in a value (the token total of an entry). -/
def jvalSum : JVal → Nat
  | .num n => n
  | .obj m => jvalSumList m

/-- Total of all numbers contained in a table. -/
def jvalSumList : List (String × JVal) → Nat
  | [] => 0
  | (_, v) :: rest => jvalSum v + jvalSumList rest

end

/-- The synthetic token/query record the seeding pass builds from a day's
total (extension.ts lines 308-312): `Math.ceil(dayTotal*0.2)`,
`Math.ceil(dayTotal*0.8)` and a single `Coding` bucket of
`Math.ceil(dayTotal/100)`, as exact Nat ceilings (see the header note). -/
def seededRecord (dayTotal : Nat) : TQRec :=
  { inputTokens := (dayTotal + 4) / 5
    outputTokens := (4 * dayTotal + 4) / 5
    queries := [("Coding", (dayTotal + 99) / 100)] }

/-- The one-time seeding pass (extension.ts lines 302-316): if the token/query
table is empty and the model table is non-empty, synthesize a record for each
date from that date's model-token total; otherwise leave the table unchanged. -/
def seedTokenQuery (stats : List (String × List (String × Nat)))
    (tq : List (String × TQRec)) : List (String × TQRec) :=
  if tq.isEmpty && !stats.isEmpty then
    stats.map (fun p => (p.1, seededRecord ((p.2.map Prod.snd).sum)))
  else tq

/-- `Math.ceil((inputTokens + outputTokens) / 100)` of the compaction pass
(extension.ts line 327), as the exact Nat ceiling. -/
def ceilDiv100 (n : Nat) : Nat := (n + 99) / 100

/-- Truthiness of a JavaScript property read of a number: present and
nonzero. -/
def truthyNat : Option Nat → Bool
  | some n => n != 0
  | none => false

/-- The compaction deletion test (extension.ts lines 326-328): the entry's
queries map has exactly one key, the `Coding` read is truthy, and either the
`Coding` count equals the seeding signature or the key is `"unknown"`. -/
def shouldDelete (key : String) (r : TQRec) : Bool :=
  (r.queries.length == 1) && truthyNat (getKey r.queries "Coding") &&
    ((getKey r.queries "Coding" == some (ceilDiv100 (r.inputTokens + r.outputTokens))) ||
      (key == "unknown"))

/-- The compaction pass over the project table (extension.ts lines 319-339):
delete every entry satisfying `shouldDelete`, keep everything else. -/
def compactProject (ps : List (String × TQRec)) : List (String × TQRec) :=
  ps.filter (fun p => !(shouldDelete p.1 p.2))

/-- Module-level branch cache of the extension: `cachedBranch` and
`branchLastChecked` (extension.ts lines 18-19). -/
structure BranchState where
  cachedBranch : String
  branchLastChecked : Nat
deriving DecidableEq

/-- Outcome of the expensive `execSync('git rev-parse ...')` fallback:
no workspace folder (the command is not run), the command throws, or it
returns a branch name. -/
inductive ExecOutcome where
  | noWorkspace
  | failed
  | ok : String → ExecOutcome
deriving DecidableEq

/-- `getCurrentBranch` (extension.ts lines 21-69).  `apiBranch` is the branch
the fast VS Code Git API yields (`none` when unavailable or falsy), `now` is
`Date.now()`, and `exec` the outcome of the expensive fallback.  Returns the
branch, the updated cache state, and whether `execSync` was invoked. -/
def getCurrentBranch (st : BranchState) (apiBranch : Option String) (now : Nat)
    (exec : ExecOutcome) : String × BranchState × Bool :=
  match apiBranch with
  | some b => (b, { st with cachedBranch := b }, false)
  | none =>
    if now - st.branchLastChecked < 10000 ∧ st.cachedBranch ≠ "unknown" ∧
        st.cachedBranch ≠ "no-git-repo" then
      (st.cachedBranch, st, false)
    else
      match exec with
      | .noWorkspace => (st.cachedBranch, { st with branchLastChecked := now }, true)
      | .failed => ("no-git-repo", { cachedBranch := "no-git-repo", branchLastChecked := now }, true)
      | .ok b => (b, { cachedBranch := b, branchLastChecked := now }, true)

/-- The export document built by `getExportData` (extension.ts lines 509-528):
`{ userId, email, usage, tokenQuery, projects }` — note it carries no
`avatarUrl` field. -/
structure ExportData where
  userId : String
  email : String
  usage : List (String × List (String × Nat))
  tokenQuery : List (String × TQRec)
  projects : List (String × TQRec)
deriving DecidableEq

/-- A record of the dashboard collection (dashboard/app/data/sample.json),
which may additionally carry an `avatarUrl`. -/
structure DashUser where
  userId : String
  email : String
  avatarUrl : Option String
  usage : List (String × List (String × Nat))
  tokenQuery : List (String × TQRec)
  projects : List (String × TQRec)
deriving DecidableEq

/-- The identity test of the merge (extension.ts line 600). -/
def matchesUser (inc : ExportData) (u : DashUser) : Bool :=
  (u.userId == inc.userId) || (u.email == inc.email)

/-- `Array.prototype.findIndex`, with `-1` modelled as `none`. -/
def findIndex (p : α → Bool) : List α → Option Nat
  | [] => none
  | x :: rest => if p x then some 0 else (findIndex p rest).map (· + 1)

/-- In-place element update `l[i] = f l[i]` of a JavaScript array. -/
def listUpdateAt : List α → Nat → (α → α) → List α
  | [], _, _ => []
  | x :: rest, 0, f => f x :: rest
  | x :: rest, n + 1, f => x :: listUpdateAt rest n f

/-- The shallow spread overlay `{ ...existing, ...incoming }` (extension.ts
lines 604-607): every field of the incoming export overwrites the existing
one, and `avatarUrl`, which the incoming record does not carry, is kept. -/
def mergeRecord (existing : DashUser) (inc : ExportData) : DashUser :=
  { userId := inc.userId
    email := inc.email
    avatarUrl := existing.avatarUrl
    usage := inc.usage
    tokenQuery := inc.tokenQuery
    projects := inc.projects }

/-- The deterministic avatar assigned to a brand-new user (extension.ts
line 613). -/
def dicebearUrl (userId : String) : String :=
  "https://api.dicebear.com/7.x/avataaars/svg?seed=" ++ userId

/-- The upload step of `antigravity.exportAndUpload` (extension.ts lines
598-616): overlay onto the first record matching by userId or email, else
append as a new user with a default avatar. -/
def uploadToDashboard (currentData : List DashUser) (inc : ExportData) : List DashUser :=
  match findIndex (matchesUser inc) currentData with
  | some i => listUpdateAt currentData i (fun u => mergeRecord u inc)
  | none =>
      currentData ++
        [{ userId := inc.userId, email := inc.email,
           avatarUrl := some (dicebearUrl inc.userId),
           usage := inc.usage, tokenQuery := inc.tokenQuery, projects := inc.projects }]

theorem jvalSumList_map_wrap (l : List (String × JVal)) :
    jvalSumList (l.map (fun q => (q.1, JVal.obj [("Gemini 1.5 Pro", q.2)]))) = jvalSumList l := by
  induction l with
  | nil => rfl
  | cons p rest ih => simp [jvalSumList, jvalSum, ih]

/-- Claim C5: the legacy model-counts migration is idempotent and preserves
the total token sum over all dates and models. -/
theorem claim_C5 (raw : List (String × JVal)) :
    migrateUsage (migrateUsage raw) = migrateUsage raw ∧
    jvalSumList (migrateUsage raw) = jvalSumList raw := by
  constructor
  · match raw with
    | [] => rfl
    | p :: rest =>
      by_cases h : isNum p.2 = true
      · simp only [migrateUsage, h, if_true, List.map_cons]
        rfl
      · simp only [migrateUsage, Bool.not_eq_true] at h ⊢
        rw [h]
        simp [h]
  · match raw with
    | [] => rfl
    | p :: rest =>
      by_cases h : isNum p.2 = true
      · simp only [migrateUsage, h, if_true]
        exact jvalSumList_map_wrap (p :: rest)
      · simp only [migrateUsage, Bool.not_eq_true] at h ⊢
        rw [h]
        simp

/-- Claim C6: seeding runs only on an empty token/query table with a
non-empty model table, never overwrites a non-empty table, and is
idempotent. -/
theorem claim_C6 (stats : List (String × List (String × Nat)))
    (tq : List (String × TQRec)) :
    (tq ≠ [] → seedTokenQuery stats tq = tq) ∧
    (stats = [] → seedTokenQuery stats tq = tq) ∧
    seedTokenQuery stats (seedTokenQuery stats tq) = seedTokenQuery stats tq := by
  refine ⟨?_, ?_, ?_⟩
  · intro h
    match tq with
    | [] => exact absurd rfl h
    | p :: rest => simp [seedTokenQuery]
  · intro h
    subst h
    simp [seedTokenQuery]
  · match tq with
    | p :: rest => simp [seedTokenQuery]
    | [] =>
      match stats with
      | [] => simp [seedTokenQuery]
      | s :: ss => simp [seedTokenQuery]

/-- Claim C6 witness: a non-empty token/query table is left unchanged. -/
theorem claim_C6_witness :
    ([("2024-01-01", (⟨6, 30, [("Debugging", 1)]⟩ : TQRec))] ≠ []) ∧
    seedTokenQuery [("2024-01-01", [("Gemini 1.5 Pro", 36)])]
        [("2024-01-01", (⟨6, 30, [("Debugging", 1)]⟩ : TQRec))] =
      [("2024-01-01", (⟨6, 30, [("Debugging", 1)]⟩ : TQRec))] :=
  ⟨by decide, (claim_C6 [("2024-01-01", [("Gemini 1.5 Pro", 36)])]
      [("2024-01-01", (⟨6, 30, [("Debugging", 1)]⟩ : TQRec))]).1 (by decide)⟩

/-- Claim C8: an edit of at most 30 characters leaves the whole store (all
three tables) unchanged. -/
theorem claim_C8 (st : Store) (dateKey branch : String) (text : List Char)
    (h : text.length ≤ 30) :
    processChange st dateKey branch text = st := by
  unfold processChange
  rw [if_neg]
  omega

/-- Claim C8 witness: a short edit changes nothing in a populated store. -/
theorem claim_C8_witness :
    ("short text".toList.length ≤ 30) ∧
    processChange
        ⟨[("2024-01-01", [("Gemini 1.5 Pro", 36)])],
         [("2024-01-01", ⟨6, 30, [("Debugging", 1)]⟩)],
         [("main", ⟨6, 30, [("Debugging", 1)]⟩)]⟩
        "2024-01-01" "main" "short text".toList =
      ⟨[("2024-01-01", [("Gemini 1.5 Pro", 36)])],
       [("2024-01-01", ⟨6, 30, [("Debugging", 1)]⟩)],
       [("main", ⟨6, 30, [("Debugging", 1)]⟩)]⟩ :=
  ⟨by decide, claim_C8 _ "2024-01-01" "main" "short text".toList (by decide)⟩

theorem shouldDelete_single_coding (key : String) (r : TQRec) (v : Nat)
    (hq : r.queries = [("Coding", v)]) (hv : v ≠ 0)
    (heq : v = ceilDiv100 (r.inputTokens + r.outputTokens)) :
    shouldDelete key r = true := by
  subst heq
  simp [shouldDelete, hq, getKey, truthyNat, hv]

theorem not_mem_compactProject (ps : List (String × TQRec)) (k : String) (r : TQRec)
    (h : shouldDelete k r = true) : (k, r) ∉ compactProject ps := by
  intro hmem
  rw [compactProject, List.mem_filter] at hmem
  rw [h] at hmem
  simp at hmem

/-- Claim C1 counterexample: the entry ("main", {inputTokens 0, outputTokens 0,
queries {Coding: 0}}) carries the claimed signature — exactly one key `Coding`
whose value equals ceil((0+0)/100) = 0 — yet compaction retains it, because the
code additionally requires the `Coding` count to be truthy (nonzero). -/
theorem claim_C1_counterexample :
    ((⟨0, 0, [("Coding", 0)]⟩ : TQRec).queries = [("Coding", 0)] ∧
      0 = ceilDiv100 ((⟨0, 0, [("Coding", 0)]⟩ : TQRec).inputTokens +
        (⟨0, 0, [("Coding", 0)]⟩ : TQRec).outputTokens)) ∧
    compactProject [("main", ⟨0, 0, [("Coding", 0)]⟩)] =
      [("main", ⟨0, 0, [("Coding", 0)]⟩)] := by decide

/-- Claim C1 (amended): compaction deletes every project entry whose queries
map is exactly {Coding: v} with v nonzero and v = ceil((in+out)/100); an entry
with more than one query category is always retained. -/
theorem claim_C1 (ps : List (String × TQRec)) (k : String) (r : TQRec) (v : Nat) :
    (r.queries = [("Coding", v)] → v ≠ 0 →
      v = ceilDiv100 (r.inputTokens + r.outputTokens) → (k, r) ∉ compactProject ps) ∧
    (2 ≤ r.queries.length → (k, r) ∈ ps → (k, r) ∈ compactProject ps) := by
  constructor
  · intro hq hv heq
    exact not_mem_compactProject ps k r (shouldDelete_single_coding k r v hq hv heq)
  · intro hlen hmem
    rw [compactProject, List.mem_filter]
    refine ⟨hmem, ?_⟩
    have : (r.queries.length == 1) = false := by
      simp only [beq_eq_false_iff_ne]
      omega
    simp [shouldDelete, this]

/-- Claim C1 witness: a genuinely seeded-looking entry is deleted, and a
two-category entry with the same token totals is retained. -/
theorem claim_C1_witness :
    (((⟨20, 80, [("Coding", 1)]⟩ : TQRec).queries = [("Coding", 1)] ∧ (1 : Nat) ≠ 0 ∧
        1 = ceilDiv100 ((⟨20, 80, [("Coding", 1)]⟩ : TQRec).inputTokens +
          (⟨20, 80, [("Coding", 1)]⟩ : TQRec).outputTokens) ∧
        2 ≤ (⟨20, 80, [("Coding", 5), ("Debugging", 2)]⟩ : TQRec).queries.length) ∧
      ("feat", (⟨20, 80, [("Coding", 1)]⟩ : TQRec)) ∉
        compactProject [("feat", ⟨20, 80, [("Coding", 1)]⟩)]) ∧
    ("main", (⟨20, 80, [("Coding", 5), ("Debugging", 2)]⟩ : TQRec)) ∈
      compactProject [("main", ⟨20, 80, [("Coding", 5), ("Debugging", 2)]⟩)] :=
  ⟨⟨⟨by decide, by decide, by decide, by decide⟩,
    (claim_C1 [("feat", ⟨20, 80, [("Coding", 1)]⟩)] "feat" ⟨20, 80, [("Coding", 1)]⟩ 1).1
      (by decide) (by decide) (by decide)⟩,
   (claim_C1 [("main", ⟨20, 80, [("Coding", 5), ("Debugging", 2)]⟩)] "main"
      ⟨20, 80, [("Coding", 5), ("Debugging", 2)]⟩ 1).2 (by decide) (by decide)⟩

/-- Claim C4 counterexample: an entry keyed by the sentinel "unknown" whose
queries map is {Debugging: 1} is retained by compaction — the `key ===
'unknown'` test only runs inside the single-`Coding`-key check, so deletion is
not "regardless of the contents of the queries map". -/
theorem claim_C4_counterexample :
    compactProject [("unknown", ⟨3, 4, [("Debugging", 1)]⟩)] =
      [("unknown", ⟨3, 4, [("Debugging", 1)]⟩)] := by decide

/-- Claim C4 (amended): an entry keyed "unknown" is deleted precisely when its
queries map has exactly one key `Coding` with a nonzero count (the token-total
signature is then not required); all other "unknown"-keyed entries survive. -/
theorem claim_C4 (ps : List (String × TQRec)) (r : TQRec) (v : Nat) :
    (r.queries = [("Coding", v)] → v ≠ 0 → ("unknown", r) ∉ compactProject ps) ∧
    (shouldDelete "unknown" r = true ↔ ∃ w, r.queries = [("Coding", w)] ∧ w ≠ 0) := by
  constructor
  · intro hq hv
    apply not_mem_compactProject
    simp [shouldDelete, hq, getKey, truthyNat, hv]
  · constructor
    · intro h
      match hq : r.queries with
      | [] => rw [shouldDelete, hq] at h; simp at h
      | p :: q :: rest => rw [shouldDelete, hq] at h; simp at h
      | [p] =>
        rw [shouldDelete, hq] at h
        by_cases hp : p.1 = "Coding"
        · refine ⟨p.2, ?_, ?_⟩
          · rw [← hp]
          · simp only [getKey, hp, if_pos rfl, truthyNat] at h
            intro h0
            rw [h0] at h
            simp at h
        · simp [getKey, hp, truthyNat] at h
    · rintro ⟨w, hq, hw⟩
      simp [shouldDelete, hq, getKey, truthyNat, hw]

/-- Claim C4 witness: an "unknown"-keyed entry whose single Coding count does
not even match the seeding signature is still deleted. -/
theorem claim_C4_witness :
    ((⟨3, 4, [("Coding", 7)]⟩ : TQRec).queries = [("Coding", 7)] ∧ (7 : Nat) ≠ 0) ∧
    ("unknown", (⟨3, 4, [("Coding", 7)]⟩ : TQRec)) ∉
      compactProject [("unknown", ⟨3, 4, [("Coding", 7)]⟩)] :=
  ⟨⟨by decide, by decide⟩,
   (claim_C4 [("unknown", ⟨3, 4, [("Coding", 7)]⟩)] ⟨3, 4, [("Coding", 7)]⟩ 7).1
     (by decide) (by decide)⟩

theorem seededSum_eq (d : Nat) :
    (d + 4) / 5 + (4 * d + 4) / 5 = d ∨ (d + 4) / 5 + (4 * d + 4) / 5 = d + 1 := by
  have h5 : d % 5 = 0 ∨ d % 5 = 1 ∨ d % 5 = 2 ∨ d % 5 = 3 ∨ d % 5 = 4 := by omega
  rcases h5 with h | h | h | h | h
  · left; omega
  all_goals right; omega

theorem seededCeil_eq (d : Nat) :
    (d + 99) / 100 = ((d + 4) / 5 + (4 * d + 4) / 5 + 99) / 100 := by
  have h5 : d % 5 = 0 ∨ d % 5 = 1 ∨ d % 5 = 2 ∨ d % 5 = 3 ∨ d % 5 = 4 := by omega
  rcases h5 with h | h | h | h | h
  · have hs : (d + 4) / 5 + (4 * d + 4) / 5 = d := by omega
    rw [hs]
  all_goals {
    have hs : (d + 4) / 5 + (4 * d + 4) / 5 = d + 1 := by omega
    have h100 : d % 100 ≠ 0 := by omega
    rw [hs]
    omega }

/-- Claim C10: for every dayTotal ≥ 1 the seeded record's token totals sum to
dayTotal or dayTotal + 1, its single nonzero Coding count equals the
compaction signature ceil((in+out)/100), so compaction deletes every project
entry produced by the seeding formula. -/
theorem claim_C10 (d : Nat) (hd : 1 ≤ d) (key : String) (ps : List (String × TQRec)) :
    ((seededRecord d).inputTokens + (seededRecord d).outputTokens = d ∨
      (seededRecord d).inputTokens + (seededRecord d).outputTokens = d + 1) ∧
    (d + 99) / 100 =
      ceilDiv100 ((seededRecord d).inputTokens + (seededRecord d).outputTokens) ∧
    shouldDelete key (seededRecord d) = true ∧
    (key, seededRecord d) ∉ compactProject ps := by
  have hsum : (seededRecord d).inputTokens + (seededRecord d).outputTokens = d ∨
      (seededRecord d).inputTokens + (seededRecord d).outputTokens = d + 1 := by
    show (d + 4) / 5 + (4 * d + 4) / 5 = d ∨ (d + 4) / 5 + (4 * d + 4) / 5 = d + 1
    exact seededSum_eq d
  have heq : (d + 99) / 100 =
      ceilDiv100 ((seededRecord d).inputTokens + (seededRecord d).outputTokens) := by
    show (d + 99) / 100 = ((d + 4) / 5 + (4 * d + 4) / 5 + 99) / 100
    exact seededCeil_eq d
  have hnz : (d + 99) / 100 ≠ 0 := by omega
  have hdel : shouldDelete key (seededRecord d) = true :=
    shouldDelete_single_coding key (seededRecord d) ((d + 99) / 100) rfl hnz heq
  exact ⟨hsum, heq, hdel, not_mem_compactProject ps key (seededRecord d) hdel⟩

/-- Claim C10 witness at dayTotal = 120: the seeded record is {24, 96,
{Coding: 2}} and compaction deletes it. -/
theorem claim_C10_witness :
    (1 ≤ 120) ∧
    (((seededRecord 120).inputTokens + (seededRecord 120).outputTokens = 120 ∨
        (seededRecord 120).inputTokens + (seededRecord 120).outputTokens = 120 + 1) ∧
      (120 + 99) / 100 =
        ceilDiv100 ((seededRecord 120).inputTokens + (seededRecord 120).outputTokens) ∧
      shouldDelete "main" (seededRecord 120) = true ∧
      ("main", seededRecord 120) ∉ compactProject [("main", seededRecord 120)]) :=
  ⟨by decide, claim_C10 120 (by decide) "main" [("main", seededRecord 120)]⟩

/-- Claim C2 counterexample: after the expensive fallback fails, the cache
holds the sentinel and the timer is reset — but a second call 1000 ms later
(well inside the 10 s window, fast source still unavailable) re-invokes the
expensive fallback, because the staleness guard excludes the sentinel. -/
theorem claim_C2_counterexample :
    (getCurrentBranch ⟨"unknown", 0⟩ none 1000 ExecOutcome.failed).2.1 =
      (⟨"no-git-repo", 1000⟩ : BranchState) ∧
    (getCurrentBranch ⟨"no-git-repo", 1000⟩ none 2000 ExecOutcome.failed).2.2 = true := by
  decide

/-- Claim C2 (amended): when the fallback fails after a stale (or never
resolved) cache, the cache is set to "no-git-repo" and the timer resets; but
whenever the cache holds that sentinel, a call with the fast source
unavailable bypasses the cache-hit path and re-invokes the expensive fallback
— even inside the 10-second window — returning the sentinel again only
because the fallback fails again. -/
theorem claim_C2 (st : BranchState) (now : Nat) :
    (10000 ≤ now - st.branchLastChecked →
      getCurrentBranch st none now ExecOutcome.failed =
        ("no-git-repo", ⟨"no-git-repo", now⟩, true)) ∧
    (st.cachedBranch = "no-git-repo" →
      getCurrentBranch st none now ExecOutcome.failed =
        ("no-git-repo", ⟨"no-git-repo", now⟩, true)) := by
  constructor
  · intro h
    unfold getCurrentBranch
    rw [if_neg]
    intro hc
    omega
  · intro h
    unfold getCurrentBranch
    rw [if_neg]
    intro hc
    exact hc.2.2 h

/-- Claim C2 witness: with the sentinel cached 1000 ms ago, a call at time
2000 re-runs the failing fallback and returns the sentinel. -/
theorem claim_C2_witness :
    ((⟨"no-git-repo", 1000⟩ : BranchState).cachedBranch = "no-git-repo") ∧
    getCurrentBranch ⟨"no-git-repo", 1000⟩ none 2000 ExecOutcome.failed =
      ("no-git-repo", ⟨"no-git-repo", 2000⟩, true) :=
  ⟨rfl, (claim_C2 ⟨"no-git-repo", 1000⟩ 2000).2 rfl⟩

theorem findIndex_append_first_match (p : α → Bool) (pre : List α) (u : α) (post : List α)
    (hpre : ∀ w ∈ pre, p w = false) (hu : p u = true) :
    findIndex p (pre ++ u :: post) = some pre.length := by
  induction pre with
  | nil => simp [findIndex, hu]
  | cons x rest ih =>
    have hx : p x = false := hpre x (List.mem_cons_self x rest)
    have : findIndex p (rest ++ u :: post) = some rest.length :=
      ih (fun w hw => hpre w (List.mem_cons_of_mem x hw))
    simp [findIndex, hx, this]

theorem listUpdateAt_append (pre : List α) (u : α) (post : List α) (f : α → α) :
    listUpdateAt (pre ++ u :: post) pre.length f = pre ++ f u :: post := by
  induction pre with
  | nil => rfl
  | cons x rest ih => simp [listUpdateAt, ih]

/-- Claim C9: merging an incoming export onto the first dashboard record that
matches it — here one matching by userId with a different email — overlays
the incoming fields (so the merged record carries the incoming email) while
keeping the existing `avatarUrl`, which the incoming record does not carry. -/
theorem claim_C9 (pre post : List DashUser) (u : DashUser) (inc : ExportData)
    (hpre : ∀ w ∈ pre, matchesUser inc w = false)
    (hid : u.userId = inc.userId) (_hemail : u.email ≠ inc.email) :
    uploadToDashboard (pre ++ u :: post) inc = pre ++ mergeRecord u inc :: post ∧
    (mergeRecord u inc).email = inc.email ∧
    (mergeRecord u inc).avatarUrl = u.avatarUrl := by
  refine ⟨?_, rfl, rfl⟩
  have hu : matchesUser inc u = true := by
    simp [matchesUser, hid]
  unfold uploadToDashboard
  rw [findIndex_append_first_match (matchesUser inc) pre u post hpre hu]
  exact listUpdateAt_append pre u post _

/-- Claim C9 witness: a concrete merge keeps the stored avatar and takes the
incoming email. -/
theorem claim_C9_witness :
    ((∀ w ∈ ([] : List DashUser), matchesUser ⟨"user_1", "new@example.com", [], [], []⟩ w = false) ∧
      (⟨"user_1", "old@example.com", some "https://avatar/1", [], [], []⟩ : DashUser).userId =
        (⟨"user_1", "new@example.com", [], [], []⟩ : ExportData).userId ∧
      (⟨"user_1", "old@example.com", some "https://avatar/1", [], [], []⟩ : DashUser).email ≠
        (⟨"user_1", "new@example.com", [], [], []⟩ : ExportData).email) ∧
    uploadToDashboard
        ([] ++ (⟨"user_1", "old@example.com", some "https://avatar/1", [], [], []⟩ : DashUser) :: [])
        ⟨"user_1", "new@example.com", [], [], []⟩ =
      [] ++ mergeRecord ⟨"user_1", "old@example.com", some "https://avatar/1", [], [], []⟩
          ⟨"user_1", "new@example.com", [], [], []⟩ :: [] ∧
    (mergeRecord ⟨"user_1", "old@example.com", some "https://avatar/1", [], [], []⟩
        ⟨"user_1", "new@example.com", [], [], []⟩).email = "new@example.com" ∧
    (mergeRecord ⟨"user_1", "old@example.com", some "https://avatar/1", [], [], []⟩
        ⟨"user_1", "new@example.com", [], [], []⟩).avatarUrl = some "https://avatar/1" :=
  ⟨⟨by simp, by decide, by decide⟩,
   claim_C9 [] [] ⟨"user_1", "old@example.com", some "https://avatar/1", [], [], []⟩
     ⟨"user_1", "new@example.com", [], [], []⟩ (by simp) (by decide) (by decide)⟩

theorem getKey_setKey_self (m : List (String × α)) (k : String) (v : α) :
    getKey (setKey m k v) k = some v := by
  induction m with
  | nil => simp [setKey, getKey]
  | cons p rest ih =>
    by_cases h : p.1 = k
    · simp [setKey, getKey, h]
    · simp [setKey, getKey, h, ih]

theorem estOutputTokens_eq_ceil (n : Nat) : (estOutputTokens n : ℤ) = ⌈(n : ℚ) / 4⌉ := by
  rw [eq_comm, Int.ceil_eq_iff]
  have h1 : (n : ℚ) ≤ 4 * (estOutputTokens n : ℚ) := by
    exact_mod_cast (show n ≤ 4 * estOutputTokens n by unfold estOutputTokens; omega)
  have h2 : 4 * (estOutputTokens n : ℚ) ≤ (n : ℚ) + 3 := by
    exact_mod_cast (show 4 * estOutputTokens n ≤ n + 3 by unfold estOutputTokens; omega)
  constructor
  · rw [lt_div_iff₀ (by norm_num : (0 : ℚ) < 4)]
    push_cast
    linarith
  · rw [div_le_iff₀ (by norm_num : (0 : ℚ) < 4)]
    push_cast
    linarith

theorem estInputTokens_eq_ceil (m : Nat) : (estInputTokens m : ℤ) = ⌈(m : ℚ) * 0.2⌉ := by
  have h02 : (m : ℚ) * 0.2 = (m : ℚ) / 5 := by
    norm_num
    ring
  rw [h02, eq_comm, Int.ceil_eq_iff]
  have h1 : (m : ℚ) ≤ 5 * (estInputTokens m : ℚ) := by
    exact_mod_cast (show m ≤ 5 * estInputTokens m by unfold estInputTokens; omega)
  have h2 : 5 * (estInputTokens m : ℚ) ≤ (m : ℚ) + 4 := by
    exact_mod_cast (show 5 * estInputTokens m ≤ m + 4 by unfold estInputTokens; omega)
  constructor
  · rw [lt_div_iff₀ (by norm_num : (0 : ℚ) < 5)]
    push_cast
    linarith
  · rw [div_le_iff₀ (by norm_num : (0 : ℚ) < 5)]
    push_cast
    linarith

/-- Claim C7: for a qualifying edit (more than 30 characters) the recorded
output estimate is ceil(insertedLength / 4) and the recorded input estimate is
ceil(outputTokens * 0.2), both exact upward roundings; the token/query record
of the edit's date grows by exactly these amounts. -/
theorem claim_C7 (st : Store) (dateKey branch : String) (text : List Char)
    (h : 30 < text.length) :
    (estOutputTokens text.length : ℤ) = ⌈(text.length : ℚ) / 4⌉ ∧
    (estInputTokens (estOutputTokens text.length) : ℤ) =
      ⌈(estOutputTokens text.length : ℚ) * 0.2⌉ ∧
    (∃ q, getKey (processChange st dateKey branch text).tokenQuery dateKey =
      some ⟨((getKey st.tokenQuery dateKey).getD ⟨0, 0, []⟩).inputTokens +
              estInputTokens (estOutputTokens text.length),
            ((getKey st.tokenQuery dateKey).getD ⟨0, 0, []⟩).outputTokens +
              estOutputTokens text.length, q⟩) := by
  refine ⟨estOutputTokens_eq_ceil text.length,
    estInputTokens_eq_ceil (estOutputTokens text.length), ?_⟩
  unfold processChange
  rw [if_pos h]
  exact ⟨_, getKey_setKey_self _ _ _⟩

/-- Claim C7 witness: a 120-character edit on an empty store records 30 output
tokens = ceil(120/4) and 6 input tokens = ceil(30 * 0.2). -/
theorem claim_C7_witness :
    (30 < (List.replicate 120 'b').length) ∧
    ((estOutputTokens (List.replicate 120 'b').length : ℤ) =
        ⌈((List.replicate 120 'b').length : ℚ) / 4⌉ ∧
      (estInputTokens (estOutputTokens (List.replicate 120 'b').length) : ℤ) =
        ⌈(estOutputTokens (List.replicate 120 'b').length : ℚ) * 0.2⌉ ∧
      (∃ q, getKey (processChange ⟨[], [], []⟩ "2024-01-01" "main"
            (List.replicate 120 'b')).tokenQuery "2024-01-01" =
        some ⟨((getKey (⟨[], [], []⟩ : Store).tokenQuery "2024-01-01").getD
                  ⟨0, 0, []⟩).inputTokens +
                estInputTokens (estOutputTokens (List.replicate 120 'b').length),
              ((getKey (⟨[], [], []⟩ : Store).tokenQuery "2024-01-01").getD
                  ⟨0, 0, []⟩).outputTokens +
                estOutputTokens (List.replicate 120 'b').length, q⟩)) :=
  ⟨by decide, claim_C7 ⟨[], [], []⟩ "2024-01-01" "main" (List.replicate 120 'b') (by decide)⟩

theorem getElem?_append_mid (a x : List α) (c : α) : (a ++ c :: x)[a.length]? = some c := by
  induction a with
  | nil => simp
  | cons y rest ih => simpa using ih

theorem getElem?_append_mid_add (a x : List α) (c : α) (j : Nat) :
    (a ++ c :: x)[a.length + (j + 1)]? = x[j]? := by
  induction a with
  | nil => simp
  | cons y rest ih =>
    have e : (y :: rest).length + (j + 1) = (rest.length + (j + 1)) + 1 := by
      simp
      omega
    rw [e, List.cons_append, List.getElem?_cons_succ, ih]

theorem drop_append_mid (a x : List α) (c : α) : (a ++ c :: x).drop (a.length + 1) = x := by
  induction a with
  | nil => rfl
  | cons y rest ih =>
    have e : (y :: rest).length + 1 = (rest.length + 1) + 1 := by simp
    rw [e, List.cons_append, List.drop_succ_cons, ih]

theorem prefixOf_append_self [BEq α] [LawfulBEq α] (x y : List α) :
    x.isPrefixOf (x ++ y) = true := by
  induction x with
  | nil => simp [List.isPrefixOf]
  | cons a rest ih => simp [List.isPrefixOf, ih]

theorem wordAt_append_mid (a x : List Char) (c : Char) :
    wordAt (a ++ c :: x) a.length = isWordChar c := by
  rw [wordAt, getElem?_append_mid]

theorem wordAt_append_mid_add (a x : List Char) (c : Char) (j : Nat) :
    wordAt (a ++ c :: x) (a.length + (j + 1)) = wordAt x j := by
  rw [wordAt, getElem?_append_mid_add, wordAt]

theorem wordAt_nil (i : Nat) : wordAt [] i = false := by
  rw [wordAt]
  simp

theorem wordAt_cons_zero (c : Char) (rest : List Char) :
    wordAt (c :: rest) 0 = isWordChar c := by
  rw [wordAt]
  simp

theorem wordAt_append_lt (u v : List Char) (j : Nat) (h : j < u.length) :
    wordAt (u ++ v) j = wordAt u j := by
  rw [wordAt, wordAt, List.getElem?_append_left h]

theorem wordAt_append_len_add (u v : List Char) (j : Nat) :
    wordAt (u ++ v) (u.length + j) = wordAt v j := by
  rw [wordAt, wordAt, List.getElem?_append_right (Nat.le_add_right _ _)]
  simp

theorem isBoundary_append_left (a x : List Char) (c : Char)
    (hc : isWordChar c = true) (hx : wordAt x 0 = false) :
    isBoundary (a ++ c :: x) (a.length + 1) = true := by
  rw [isBoundary, if_neg (by omega : ¬(a.length + 1 = 0))]
  have e1 : a.length + 1 - 1 = a.length := by omega
  rw [e1, wordAt_append_mid, hc]
  have e2 : a.length + 1 = a.length + (0 + 1) := by omega
  rw [e2, wordAt_append_mid_add, hx]
  rfl

theorem isBoundary_append_right (a x : List Char) (c : Char) (j : Nat)
    (h : (wordAt x j != wordAt x (j + 1)) = true) :
    isBoundary (a ++ c :: x) (a.length + 1 + (j + 1)) = true := by
  rw [isBoundary, if_neg (by omega : ¬(a.length + 1 + (j + 1) = 0))]
  have e1 : a.length + 1 + (j + 1) - 1 = a.length + (j + 1) := by omega
  rw [e1, wordAt_append_mid_add]
  have e2 : a.length + 1 + (j + 1) = a.length + ((j + 1) + 1) := by omega
  rw [e2, wordAt_append_mid_add]
  exact h

theorem reMatch_of_decomp (pats : List Pat) (tok a b : List Char) (c : Char)
    (hmem : Pat.lit tok ∈ pats)
    (h1 : isBoundary (a ++ c :: (tok ++ b)) (a.length + 1) = true)
    (h2 : isBoundary (a ++ c :: (tok ++ b)) (a.length + 1 + tok.length) = true) :
    reMatch pats (a ++ c :: (tok ++ b)) = true := by
  rw [reMatch, List.any_eq_true]
  refine ⟨a.length + 1, List.mem_range.mpr (by simp), ?_⟩
  rw [List.any_eq_true]
  refine ⟨Pat.lit tok, hmem, ?_⟩
  rw [drop_append_mid, List.any_eq_true]
  refine ⟨tok.length, by simp [matchLens, prefixOf_append_self], ?_⟩
  rw [h1, h2]
  rfl

theorem classify_doc_of_lit_tok (t a b tok : List Char) (c : Char) (j : Nat)
    (hmem : Pat.lit tok ∈ documentationPats)
    (hlen : tok.length = j + 1)
    (htok0 : wordAt tok 0 = false)
    (htokj : wordAt tok j = true)
    (hsplit : t.map Char.toLower = a ++ c :: (tok ++ b))
    (hc : isWordChar c = true)
    (hb : ∀ d, b.head? = some d → isWordChar d = false)
    (hdbg : reMatch debuggingPats (t.map Char.toLower) = false)
    (hsrch : reMatch searchPats (t.map Char.toLower) = false) :
    classifyQuery t = "Documentation" := by
  have hb0 : wordAt b 0 = false := by
    cases b with
    | nil => exact wordAt_nil 0
    | cons d rest => rw [wordAt_cons_zero]; exact hb d rfl
  have hdoc : reMatch documentationPats (t.map Char.toLower) = true := by
    rw [hsplit]
    apply reMatch_of_decomp documentationPats tok a b c hmem
    · apply isBoundary_append_left a (tok ++ b) c hc
      rw [wordAt_append_lt tok b 0 (by omega)]
      exact htok0
    · rw [hlen]
      apply isBoundary_append_right
      have hA : wordAt (tok ++ b) j = true := by
        rw [wordAt_append_lt tok b j (by omega)]
        exact htokj
      have hB : wordAt (tok ++ b) (j + 1) = wordAt b 0 := by
        have e : j + 1 = tok.length + 0 := by omega
        rw [e, wordAt_append_len_add]
      rw [hA, hB, hb0]
      rfl
  rw [classifyQuery, hdbg, hsrch, hdoc]
  rfl

/-- Claim C3 counterexample: the text "@param" contains the literal token
`@param` and matches no Debugging or Search rule, yet it classifies as
"General Question", not "Documentation" — the regex wraps `@param` in word
boundaries, and `\b` before the non-word character `@` requires a preceding
word character, which a leading `@param` does not have. -/
theorem claim_C3_counterexample :
    containsTok "@param".toList atParamTok = true ∧
    reMatch debuggingPats ("@param".toList.map Char.toLower) = false ∧
    reMatch searchPats ("@param".toList.map Char.toLower) = false ∧
    classifyQuery "@param".toList = "General Question" := by decide

/-- Claim C3 (amended): a text classifies as Documentation via the literal
tokens only when the word boundaries around them are satisfied: for `@param`,
`@return`, `@description`, the occurrence (in the lowercased text) must be
immediately preceded by a word character and not immediately followed by one;
for the block-comment opener `/**` it must be immediately preceded and
followed by word characters.  Under those conditions, and with no Debugging or
Search rule matching, classify returns Documentation. -/
theorem claim_C3 :
    (∀ (t a b : List Char) (c : Char) (tok : List Char),
      tok ∈ [atParamTok, atReturnTok, atDescriptionTok] →
      t.map Char.toLower = a ++ c :: (tok ++ b) →
      isWordChar c = true →
      (∀ d, b.head? = some d → isWordChar d = false) →
      reMatch debuggingPats (t.map Char.toLower) = false →
      reMatch searchPats (t.map Char.toLower) = false →
      classifyQuery t = "Documentation") ∧
    (∀ (t a b : List Char) (c d : Char),
      t.map Char.toLower = a ++ c :: (blockCommentTok ++ (d :: b)) →
      isWordChar c = true →
      isWordChar d = true →
      reMatch debuggingPats (t.map Char.toLower) = false →
      reMatch searchPats (t.map Char.toLower) = false →
      classifyQuery t = "Documentation") := by
  constructor
  · intro t a b c tok htok hsplit hc hb hdbg hsrch
    simp only [List.mem_cons, List.mem_singleton, List.not_mem_nil, or_false] at htok
    rcases htok with h | h | h
    · subst h
      exact classify_doc_of_lit_tok t a b atParamTok c 5 (by decide) (by decide)
        (by decide) (by decide) hsplit hc hb hdbg hsrch
    · subst h
      exact classify_doc_of_lit_tok t a b atReturnTok c 6 (by decide) (by decide)
        (by decide) (by decide) hsplit hc hb hdbg hsrch
    · subst h
      exact classify_doc_of_lit_tok t a b atDescriptionTok c 11 (by decide) (by decide)
        (by decide) (by decide) hsplit hc hb hdbg hsrch
  · intro t a b c d hsplit hc hd hdbg hsrch
    have hdoc : reMatch documentationPats (t.map Char.toLower) = true := by
      rw [hsplit]
      apply reMatch_of_decomp documentationPats blockCommentTok a (d :: b) c (by decide)
      · apply isBoundary_append_left a (blockCommentTok ++ (d :: b)) c hc
        rw [wordAt_append_lt blockCommentTok (d :: b) 0 (by decide)]
        decide
      · have hlen : blockCommentTok.length = 2 + 1 := rfl
        rw [hlen]
        apply isBoundary_append_right
        have hA : wordAt (blockCommentTok ++ (d :: b)) 2 = false := by
          rw [wordAt_append_lt blockCommentTok (d :: b) 2 (by decide)]
          decide
        have hB : wordAt (blockCommentTok ++ (d :: b)) (2 + 1) = isWordChar d := by
          have e : (2 : Nat) + 1 = blockCommentTok.length + 0 := by decide
          rw [e, wordAt_append_len_add, wordAt_cons_zero]
        rw [hA, hB, hd]
        rfl
    rw [classifyQuery, hdbg, hsrch, hdoc]
    rfl

/-- Claim C3 witness: "x@param" (token preceded by the word character `x`)
classifies as Documentation. -/
theorem claim_C3_witness :
    ("x@param".toList.map Char.toLower = [] ++ 'x' :: (atParamTok ++ []) ∧
      isWordChar 'x' = true ∧
      reMatch debuggingPats ("x@param".toList.map Char.toLower) = false ∧
      reMatch searchPats ("x@param".toList.map Char.toLower) = false) ∧
    classifyQuery "x@param".toList = "Documentation" :=
  ⟨⟨by decide, by decide, by decide, by decide⟩,
   claim_C3.1 "x@param".toList [] [] 'x' atParamTok (by decide) (by decide) (by decide)
     (fun d h => nomatch h) (by decide) (by decide)⟩
